import Mathlib

/-!
Verification of the pdf-works border/scale pipeline.

The definitions below are shallow embeddings of the pure computations in
`add_border.py`, `bbox/bbox.py`, `boundary-box/boundary-box.py` and
`border_scale/border_scale.py`: page geometry (scale and translation),
rounded-border radius clamping, text-anchor placement, page-range parsing,
color parsing and page-number formatting.  Floating-point arithmetic in the
source is modelled with exact rationals; Python strings are modelled as
lists of characters.
-/

namespace PdfBorder

/-- Transform placed on a page's content: matrix
`[scaleX, 0, 0, scaleY, translateX, translateY]` as built in
`process_pdf` (add_border.py) and `process_pdf_standard` (bbox.py). -/
structure PageTransform where
  scaleX : ℚ
  scaleY : ℚ
  translateX : ℚ
  translateY : ℚ
deriving DecidableEq

/-- Geometry computation shared by `process_pdf` (add_border.py lines
130-162) and `process_pdf_standard` (bbox.py lines 914-936): total margin,
available box, per-axis scales, then either the uniform centered transform
(preserve ratio) or the anisotropic stretch with translate = totalMargin. -/
def computeTransform (W H outerMargin innerPadding : ℚ) (preserveAspect : Bool) :
    PageTransform :=
  let totalMargin := outerMargin + innerPadding
  let availW := W - 2 * totalMargin
  let availH := H - 2 * totalMargin
  let scaleX := availW / W
  let scaleY := availH / H
  if preserveAspect then
    let s := min scaleX scaleY
    let scaledW := W * s
    let scaledH := H * s
    ⟨s, s, totalMargin + (availW - scaledW) / 2, totalMargin + (availH - scaledH) / 2⟩
  else
    ⟨scaleX, scaleY, totalMargin, totalMargin⟩

/-- Placement rectangle `(x0, y0, x1, y1)` passed to `show_pdf_page` by
`process_pdf_high_quality` (bbox.py lines 720-757) in the vector-preserving
path: the code picks a single `scale_factor` (`min` of the two when
preserving ratio, `scale_x` alone otherwise) and spans
`orig_width * scale_factor` by `orig_height * scale_factor` from the
offset. -/
def hqVectorRect (W H outerMargin innerPadding : ℚ) (preserveAspect : Bool) :
    ℚ × ℚ × ℚ × ℚ :=
  let totalMargin := outerMargin + innerPadding
  let availW := W - 2 * totalMargin
  let availH := H - 2 * totalMargin
  let scaleX := availW / W
  let scaleY := availH / H
  let s := if preserveAspect then min scaleX scaleY else scaleX
  let xo := if preserveAspect then totalMargin + (availW - W * s) / 2 else totalMargin
  let yo := if preserveAspect then totalMargin + (availH - H * s) / 2 else totalMargin
  (xo, yo, xo + W * s, yo + H * s)

/-- Radius actually used for a rounded border in
`process_pdf_high_quality` (bbox.py lines 778-780): the outer rectangle is
`x0 = y0 = outerMargin`, `x1 = W - outerMargin`, `y1 = H - outerMargin`,
and `actual_radius = min(corner_radius, min((x1-x0)/2, (y1-y0)/2, 50))`. -/
def actualRadiusHQ (W H outerMargin cornerRadius : ℚ) : ℚ :=
  let x0 := outerMargin
  let y0 := outerMargin
  let x1 := W - outerMargin
  let y1 := H - outerMargin
  let maxRadius := min (min ((x1 - x0) / 2) ((y1 - y0) / 2)) 50
  min cornerRadius maxRadius

/-- Radius actually used for a rounded border in `process_pdf_standard`
(bbox.py lines 944-947): `min(corner_radius, min((W - 2*outer)/2,
(H - 2*outer)/2, 50))`. -/
def actualRadiusStd (W H outerMargin cornerRadius : ℚ) : ℚ :=
  let maxRadius := min (min ((W - 2 * outerMargin) / 2) ((H - 2 * outerMargin) / 2)) 50
  min cornerRadius maxRadius

/-- Characters treated as whitespace by Python's `str.strip()` (ASCII
subset). -/
def isPySpace (c : Char) : Bool :=
  c == ' ' || c == '\t' || c == '\n' || c == '\r' || c == Char.ofNat 11 || c == Char.ofNat 12

/-- Python `str.strip()`: drop whitespace from both ends. -/
def pyStrip (s : List Char) : List Char :=
  ((s.dropWhile isPySpace).reverse.dropWhile isPySpace).reverse

/-- Python `str.lower()` (ASCII subset). -/
def pyLower (s : List Char) : List Char :=
  s.map Char.toLower

/-- Python `str.split(sep)` for a one-character separator: note that the
empty string splits to `[""]` and separators at the ends produce empty
pieces, exactly as in Python. -/
def splitOnChar (sep : Char) : List Char → List (List Char)
  | [] => [[]]
  | c :: cs =>
    if c = sep then
      [] :: splitOnChar sep cs
    else
      match splitOnChar sep cs with
      | [] => [[c]]
      | t :: ts => (c :: t) :: ts

/-- Python `pat in hay` substring test. -/
def containsSub : List Char → List Char → Bool
  | [], pat => pat.isEmpty
  | c :: t, pat => pat.isPrefixOf (c :: t) || containsSub t pat

/-- Value of a decimal digit character, if it is one. -/
def digitVal (c : Char) : Option Nat :=
  if c.isDigit then some (c.toNat - '0'.toNat) else none

/-- Accumulating loop of Python's `int()` digit parsing: a single
underscore may separate two digits, anything else is a parse failure. -/
def digitsLoop : Nat → List Char → Option Nat
  | acc, [] => some acc
  | _, '_' :: [] => none
  | acc, '_' :: c :: cs =>
    match digitVal c with
    | some d => digitsLoop (acc * 10 + d) cs
    | none => none
  | acc, c :: cs =>
    match digitVal c with
    | some d => digitsLoop (acc * 10 + d) cs
    | none => none

/-- Nonempty digit sequence (with Python's underscore rule): first
character must be a digit. -/
def parseDigits : List Char → Option Nat
  | [] => none
  | c :: cs =>
    match digitVal c with
    | some d => digitsLoop d cs
    | none => none

/-- Python `int(s)` on a string: strip whitespace, an optional single sign,
then a digit sequence; `none` models the `ValueError`. -/
def pyInt (s : List Char) : Option Int :=
  match pyStrip s with
  | '+' :: rest => (parseDigits rest).map (fun n => (n : Int))
  | '-' :: rest => (parseDigits rest).map (fun n => -(n : Int))
  | rest => (parseDigits rest).map (fun n => (n : Int))

/-- Zero-indexed pages contributed by a range token `a-b` in
`parse_page_range` (bbox.py lines 150-157):
`for page in range(max(1, start), min(total_pages + 1, end + 1)):
pages.add(page - 1)`. -/
def clampRangePages (totalPages : Nat) (a b : Int) : List Nat :=
  let lo : Int := max 1 a
  let hi : Int := min ((totalPages : Int) + 1) (b + 1)
  (List.range (hi - lo).toNat).map (fun (i : Nat) => (lo + (i : Int) - 1).toNat)

/-- Handling of one comma-separated token in `parse_page_range`
(bbox.py lines 147-168): the pair is the list of 0-indexed pages added and
the number of warnings printed (0 or 1).  A token containing a hyphen must
split into exactly two `int()`-parseable pieces; a plain token must be an
`int()` in `[1, totalPages]`; every failure prints one warning and adds
nothing. -/
def processPart (totalPages : Nat) (token : List Char) : List Nat × Nat :=
  let part := pyStrip token
  if part.contains '-' then
    match splitOnChar '-' part with
    | [s1, s2] =>
      match pyInt s1, pyInt s2 with
      | some a, some b => (clampRangePages totalPages a b, 0)
      | _, _ => ([], 1)
    | _ => ([], 1)
  else
    match pyInt part with
    | some m => if 1 ≤ m ∧ m ≤ (totalPages : Int) then ([(m - 1).toNat], 0) else ([], 1)
    | none => ([], 1)

/-- Insertion into the accumulator modelling Python's `set.add`. -/
def addPage (acc : List Nat) (p : Nat) : List Nat :=
  if p ∈ acc then acc else p :: acc

/-- One iteration of the token loop of `parse_page_range`: add the token's
pages to the set and accumulate its warnings. -/
def rangeStep (totalPages : Nat) (acc : List Nat × Nat) (token : List Char) :
    List Nat × Nat :=
  ((processPart totalPages token).1.foldl addPage acc.1,
    acc.2 + (processPart totalPages token).2)

/-- `parse_page_range(page_range_str, total_pages)` (bbox.py lines 139-170
and boundary-box.py lines 114-158): the first component is the returned
sorted list of 0-indexed pages, the second the number of warnings
printed. -/
def parse_page_range (s : List Char) (totalPages : Nat) : List Nat × Nat :=
  if s = [] ∨ pyLower s = "all".toList then
    (List.range totalPages, 0)
  else
    let parts := splitOnChar ',' s
    let res := parts.foldl (rangeStep totalPages) ([], 0)
    (res.1.insertionSort (· ≤ ·), res.2)

/-- Pages returned by `parse_page_range`, without the warning count. -/
def parsePages (s : List Char) (totalPages : Nat) : List Nat :=
  (parse_page_range s totalPages).1

/-- `parse_color(color_string)` (add_border.py lines 208-218, bbox.py lines
999-1009): split on commas; exactly three `int()`-parseable pieces give
`(r/255, g/255, b/255)` with no range check; anything else prints a warning
and returns black `(0, 0, 0)`. -/
def parse_color (s : List Char) : ℚ × ℚ × ℚ :=
  match splitOnChar ',' s with
  | [x, y, z] =>
    match pyInt x, pyInt y, pyInt z with
    | some r, some g, some b => ((r : ℚ) / 255, (g : ℚ) / 255, (b : ℚ) / 255)
    | _, _, _ => (0, 0, 0)
  | _ => (0, 0, 0)

/-- `calculate_text_position` (bbox.py lines 189-223): bounds inset by
`outer_margin + margin` when the location string is `inside`, by `margin`
alone otherwise; the anchor is then selected by substring tests on the
position string, in bottom-left-origin coordinates. -/
def calculate_text_position (position loc : List Char)
    (pageWidth pageHeight outerMargin textWidth textHeight margin : ℚ) : ℚ × ℚ :=
  let leftBound := if loc = "inside".toList then outerMargin + margin else margin
  let rightBound :=
    if loc = "inside".toList then pageWidth - outerMargin - margin else pageWidth - margin
  let topBound :=
    if loc = "inside".toList then pageHeight - outerMargin - margin else pageHeight - margin
  let bottomBound := if loc = "inside".toList then outerMargin + margin else margin
  let x :=
    if containsSub position "left".toList then leftBound
    else if containsSub position "right".toList then rightBound - textWidth
    else (pageWidth - textWidth) / 2
  let y :=
    if containsSub position "top".toList then topBound - textHeight
    else if containsSub position "bottom".toList then bottomBound
    else pageHeight / 2
  (x, y)

/-- Vertical component of a position keyword. -/
inductive VPos where
  | top
  | bottom
  | middle
deriving DecidableEq

/-- Horizontal component of a position keyword. -/
inductive HPos where
  | left
  | right
  | hcenter
deriving DecidableEq

/-- The nine position strings accepted by the configuration. -/
def posStr : VPos → HPos → List Char
  | .top, .left => "top-left".toList
  | .top, .right => "top-right".toList
  | .top, .hcenter => "top-center".toList
  | .bottom, .left => "bottom-left".toList
  | .bottom, .right => "bottom-right".toList
  | .bottom, .hcenter => "bottom-center".toList
  | .middle, .left => "center-left".toList
  | .middle, .right => "center-right".toList
  | .middle, .hcenter => "center-center".toList

/-- The two location strings accepted by the configuration. -/
def locStr (inside : Bool) : List Char :=
  if inside then "inside".toList else "outside".toList

/-- Guard under which `add_page_elements_pymupdf` (bbox.py line 235) and
`add_page_elements_reportlab` (bbox.py line 322) draw a page number:
`page_num > skip_first and page_num <= total_pages - skip_last`, where
`page_num` is the 1-based position in the processed-page loop. -/
def pageNumberDrawn (pageNum totalPages skipFirst skipLast : Int) : Prop :=
  skipFirst < pageNum ∧ pageNum ≤ totalPages - skipLast

/-- Displayed number `start_number + page_num - 1 - skip_first`
(bbox.py lines 237 and 324). -/
def display_page_num (startNumber pageNum skipFirst : Int) : Int :=
  startNumber + pageNum - 1 - skipFirst

/-- Width/height trace of the page loops of `process_pdf_standard`
(bbox.py lines 909-986) and `process_pdf_high_quality` (bbox.py lines
711-857): for each entry of `page_indices`, in order, one output page is
created with the dimensions of that source page; no other page is
emitted. -/
def processDocDims (dims : List (ℚ × ℚ)) (pageIdx : List Nat) : List (ℚ × ℚ) :=
  pageIdx.filterMap (fun i => dims.get? i)

/-- Python `str.replace(pat, rep)` for a nonempty pattern, with explicit
fuel to keep the recursion structural; each occurrence is replaced left to
right and the replacement text is not rescanned.  The call sites only use
the nonempty patterns `{n}` and `{total}`. -/
def pyReplaceFuel : Nat → List Char → List Char → List Char → List Char
  | 0, s, _, _ => s
  | _ + 1, [], _, _ => []
  | fuel + 1, c :: rest, pat, rep =>
    if pat ≠ [] ∧ pat.isPrefixOf (c :: rest) then
      rep ++ pyReplaceFuel fuel (rest.drop (pat.length - 1)) pat rep
    else
      c :: pyReplaceFuel fuel rest pat rep

/-- Python `str.replace(pat, rep)` (nonempty `pat`). -/
def pyReplace (s pat rep : List Char) : List Char :=
  pyReplaceFuel s.length s pat rep

/-- Python `str(n)` for an integer. -/
def pyStr (n : Int) : List Char :=
  (Int.repr n).toList

/-- `format_page_number(format_string, current_page, total_pages)`
(bbox.py lines 172-187): empty template gives the empty string; otherwise
substitute `{n}` then `{total}`; if the template had no `{n}` and the
digits of the current page do not occur in the substituted result, return
the empty string, else the substituted result. -/
def format_page_number (fmt : List Char) (currentPage totalPages : Int) : List Char :=
  if fmt = [] then []
  else
    let r1 := pyReplace fmt "{n}".toList (pyStr currentPage)
    let r2 := pyReplace r1 "{total}".toList (pyStr totalPages)
    if containsSub fmt "{n}".toList = false ∧ containsSub r2 (pyStr currentPage) = false then
      []
    else r2

/-- C1: with preserveAspectRatio, under positive page dimensions,
nonnegative margins and `2 * totalMargin < min W H`, the transform is the
uniform scale `min ((W - 2m)/W) ((H - 2m)/H)` with the offsets
`totalMargin + (avail - scaled)/2`, and the scaled content is exactly
centered on both axes. -/
theorem C1_geometry_centered (W H outerMargin innerPadding : ℚ)
    (hW : 0 < W) (hH : 0 < H) (ho : 0 ≤ outerMargin) (hi : 0 ≤ innerPadding)
    (hfit : 2 * (outerMargin + innerPadding) < min W H) :
    (computeTransform W H outerMargin innerPadding true).scaleX =
      min ((W - 2 * (outerMargin + innerPadding)) / W)
        ((H - 2 * (outerMargin + innerPadding)) / H) ∧
    (computeTransform W H outerMargin innerPadding true).scaleY =
      (computeTransform W H outerMargin innerPadding true).scaleX ∧
    (computeTransform W H outerMargin innerPadding true).translateX =
      (outerMargin + innerPadding) +
        ((W - 2 * (outerMargin + innerPadding)) -
          W * (computeTransform W H outerMargin innerPadding true).scaleX) / 2 ∧
    (computeTransform W H outerMargin innerPadding true).translateY =
      (outerMargin + innerPadding) +
        ((H - 2 * (outerMargin + innerPadding)) -
          H * (computeTransform W H outerMargin innerPadding true).scaleY) / 2 ∧
    (computeTransform W H outerMargin innerPadding true).translateX +
        W * (computeTransform W H outerMargin innerPadding true).scaleX / 2 = W / 2 ∧
    (computeTransform W H outerMargin innerPadding true).translateY +
        H * (computeTransform W H outerMargin innerPadding true).scaleY / 2 = H / 2 := by
  refine ⟨rfl, rfl, rfl, rfl, ?_, ?_⟩
  · have h : (computeTransform W H outerMargin innerPadding true).translateX =
        (outerMargin + innerPadding) +
          ((W - 2 * (outerMargin + innerPadding)) -
            W * (computeTransform W H outerMargin innerPadding true).scaleX) / 2 := rfl
    rw [h]
    ring
  · have h : (computeTransform W H outerMargin innerPadding true).translateY =
        (outerMargin + innerPadding) +
          ((H - 2 * (outerMargin + innerPadding)) -
            H * (computeTransform W H outerMargin innerPadding true).scaleY) / 2 := rfl
    rw [h]
    ring

/-- Witness for C1 at the concrete page `W = 10`, `H = 20`,
`outerMargin = 1`, `innerPadding = 2`. -/
theorem C1_geometry_centered_witness :
    (computeTransform 10 20 1 2 true).scaleX =
      min ((10 - 2 * (1 + 2)) / 10) ((20 - 2 * ((1 : ℚ) + 2)) / 20) ∧
    (computeTransform 10 20 1 2 true).scaleY = (computeTransform 10 20 1 2 true).scaleX ∧
    (computeTransform 10 20 1 2 true).translateX =
      ((1 : ℚ) + 2) + ((10 - 2 * (1 + 2)) - 10 * (computeTransform 10 20 1 2 true).scaleX) / 2 ∧
    (computeTransform 10 20 1 2 true).translateY =
      ((1 : ℚ) + 2) + ((20 - 2 * (1 + 2)) - 20 * (computeTransform 10 20 1 2 true).scaleY) / 2 ∧
    (computeTransform 10 20 1 2 true).translateX +
        10 * (computeTransform 10 20 1 2 true).scaleX / 2 = 10 / 2 ∧
    (computeTransform 10 20 1 2 true).translateY +
        20 * (computeTransform 10 20 1 2 true).scaleY / 2 = 20 / 2 :=
  C1_geometry_centered 10 20 1 2 (by norm_num) (by norm_num) (by norm_num) (by norm_num)
    (by norm_num)

/-- C5 failing input: with `preserve_ratio = false` and the vector-preserving
quality mode, the PyMuPDF path of `process_pdf_high_quality` places the
content with the x-axis scale on both axes.  On a 200 x 100 page with
`outerMargin = 10`, `innerPadding = 0` the placement rectangle is
`(10, 10, 190, 100)`: its vertical extent is 90, not the available height
80, and its top edge 100 overshoots the inner bound 90 — while the
baseline pypdf strategy (`computeTransform`) does use the independent
y-scale `(H - 2m)/H` as the claim states. -/
theorem C5_hq_uniform_stretch_failing :
    hqVectorRect 200 100 10 0 false = (10, 10, 190, 100) ∧
    (hqVectorRect 200 100 10 0 false).2.2.2 - (hqVectorRect 200 100 10 0 false).2.1 ≠
      100 - 2 * (10 + 0) ∧
    (hqVectorRect 200 100 10 0 false).2.2.2 > 100 - (10 + 0) ∧
    (computeTransform 200 100 10 0 false).scaleY = (100 - 2 * (10 + 0)) / 100 := by
  refine ⟨?_, ?_, ?_, ?_⟩ <;> norm_num [hqVectorRect, computeTransform]

/-- C6 counterexample: for a 100 x 100 page with `outerMargin = 60`
(`availW = availH = -20 ≤ 0`) the geometry computation returns scale
`-1/5`, which is not positive: no positive epsilon floor exists in the
code. -/
theorem C6_scale_not_floored_counterexample :
    (computeTransform 100 100 60 0 true).scaleX = -(1 / 5 : ℚ) ∧
    ¬ 0 < (computeTransform 100 100 60 0 true).scaleX := by
  constructor <;> norm_num [computeTransform]

/-- C6 amended: when `availW ≤ 0` or `availH ≤ 0` the computation is total
(it never divides by the page dimensions being zero, so no crash), but at
least one scale component is `≤ 0` — the result is not floored at a
positive epsilon and violates the positivity invariant. -/
theorem C6_degenerate_scale_nonpos (W H outerMargin innerPadding : ℚ) (pa : Bool)
    (hW : 0 < W) (hH : 0 < H)
    (hdeg : W - 2 * (outerMargin + innerPadding) ≤ 0 ∨
      H - 2 * (outerMargin + innerPadding) ≤ 0) :
    (computeTransform W H outerMargin innerPadding pa).scaleX ≤ 0 ∨
    (computeTransform W H outerMargin innerPadding pa).scaleY ≤ 0 := by
  have hsx : (W - 2 * (outerMargin + innerPadding)) / W ≤ 0 ∨
      (H - 2 * (outerMargin + innerPadding)) / H ≤ 0 := by
    rcases hdeg with h | h
    · left
      rw [div_nonpos_iff]
      exact Or.inr ⟨h, hW.le⟩
    · right
      rw [div_nonpos_iff]
      exact Or.inr ⟨h, hH.le⟩
  cases pa with
  | false => simpa [computeTransform] using hsx
  | true =>
    left
    show min ((W - 2 * (outerMargin + innerPadding)) / W)
        ((H - 2 * (outerMargin + innerPadding)) / H) ≤ 0
    rcases hsx with h | h
    · exact le_trans (min_le_left _ _) h
    · exact le_trans (min_le_right _ _) h

/-- Witness for C6 amended at `W = H = 100`, `outerMargin = 60`,
`innerPadding = 0`, preserve ratio on. -/
theorem C6_degenerate_scale_nonpos_witness :
    (computeTransform 100 100 60 0 true).scaleX ≤ 0 ∨
    (computeTransform 100 100 60 0 true).scaleY ≤ 0 :=
  C6_degenerate_scale_nonpos 100 100 60 0 true (by norm_num) (by norm_num)
    (by norm_num)

/-- C7: for a positive corner radius, the high-quality and standard code
paths clamp to the same value `min cornerRadius ((x1-x0)/2) ((y1-y0)/2) 50`
over the outer border rectangle, and for `cornerRadius = 1000` on a
100 x 100 page with `outerMargin = 10` the drawn radius is at most 40. -/
theorem C7_rounded_radius_clamped (W H outerMargin cornerRadius : ℚ)
    (hr : 0 < cornerRadius) :
    actualRadiusHQ W H outerMargin cornerRadius =
      actualRadiusStd W H outerMargin cornerRadius ∧
    actualRadiusHQ W H outerMargin cornerRadius =
      min cornerRadius
        (min (min ((W - 2 * outerMargin) / 2) ((H - 2 * outerMargin) / 2)) 50) ∧
    actualRadiusHQ 100 100 10 1000 ≤ 40 := by
  have e1 : W - outerMargin - outerMargin = W - 2 * outerMargin := by ring
  have e2 : H - outerMargin - outerMargin = H - 2 * outerMargin := by ring
  refine ⟨?_, ?_, ?_⟩
  · simp [actualRadiusHQ, actualRadiusStd, e1, e2]
  · simp [actualRadiusHQ, e1, e2]
  · norm_num [actualRadiusHQ, min_def]

/-- A string with no occurrence of the separator splits to itself. -/
theorem splitOnChar_of_not_contains {c : Char} {s : List Char}
    (h : s.contains c = false) : splitOnChar c s = [s] := by
  induction s with
  | nil => rfl
  | cons a t ih =>
    have h1 : (c == a) = false ∧ t.contains c = false := by
      simpa [List.contains_cons, Bool.or_eq_false_iff] using h
    have ha : ¬ a = c := by
      intro e
      subst e
      simp at h1
    rw [splitOnChar.eq_2, if_neg ha, ih h1.2]

/-- A split with at least two pieces forces the separator to occur. -/
theorem contains_of_splitOnChar_pair {c : Char} {s s1 s2 : List Char}
    {rest : List (List Char)} (h : splitOnChar c s = s1 :: s2 :: rest) :
    s.contains c = true := by
  by_contra hc
  have hfalse : s.contains c = false := by
    simpa using hc
  rw [splitOnChar_of_not_contains hfalse] at h
  simp at h

/-- Membership in the pages contributed by a clamped range token: the
accepted 1-indexed page numbers are exactly the interval
`[max 1 a, min totalPages b]`. -/
theorem mem_clampRangePages {totalPages : Nat} {a b : Int} {k : Nat} :
    k ∈ clampRangePages totalPages a b ↔
      max 1 a ≤ (k : Int) + 1 ∧ (k : Int) + 1 ≤ min (totalPages : Int) b := by
  have key : ∀ lo hi : Int, 1 ≤ lo →
      (k ∈ (List.range (hi - lo).toNat).map (fun (i : Nat) => (lo + (i : Int) - 1).toNat) ↔
        lo ≤ (k : Int) + 1 ∧ (k : Int) + 1 ≤ hi - 1) := by
    intro lo hi hlo
    rw [List.mem_map]
    constructor
    · rintro ⟨i, hi2, rfl⟩
      rw [List.mem_range] at hi2
      omega
    · intro h
      refine ⟨((k : Int) + 1 - lo).toNat, ?_, ?_⟩
      · rw [List.mem_range]
        omega
      · omega
  have h1 : (1 : Int) ≤ max 1 a := le_max_left _ _
  have h2 : min ((totalPages : Int) + 1) (b + 1) - 1 = min (totalPages : Int) b := by
    rcases le_total ((totalPages : Int) + 1) (b + 1) with h | h
    · rw [min_eq_left h, min_eq_left (by omega)]
      ring
    · rw [min_eq_right h, min_eq_right (by omega)]
      ring
  unfold clampRangePages
  rw [key (max 1 a) (min ((totalPages : Int) + 1) (b + 1)) h1, h2]

/-- Set-style insertion preserves distinctness. -/
theorem addPage_nodup {acc : List Nat} {p : Nat} (h : acc.Nodup) :
    (addPage acc p).Nodup := by
  unfold addPage
  split
  · exact h
  · exact List.nodup_cons.mpr ⟨by assumption, h⟩

/-- Folding set-style insertions preserves distinctness. -/
theorem foldl_addPage_nodup (l : List Nat) :
    ∀ acc : List Nat, acc.Nodup → (l.foldl addPage acc).Nodup := by
  induction l with
  | nil => exact fun _ h => h
  | cons p t ih => exact fun acc h => ih _ (addPage_nodup h)

/-- The accumulated page set of the token loop stays distinct. -/
theorem foldl_rangeStep_nodup (totalPages : Nat) (parts : List (List Char)) :
    ∀ acc : List Nat × Nat, acc.1.Nodup →
      ((parts.foldl (rangeStep totalPages) acc).1).Nodup := by
  induction parts with
  | nil => exact fun _ h => h
  | cons p t ih => exact fun acc h => ih _ (foldl_addPage_nodup _ _ h)

/-- The page list returned by `parse_page_range` is strictly increasing,
hence deduplicated and sorted ascending. -/
theorem parsePages_sorted (s : List Char) (totalPages : Nat) :
    List.Sorted (· < ·) (parsePages s totalPages) := by
  by_cases h : s = [] ∨ pyLower s = "all".toList
  · simp only [parsePages, parse_page_range, if_pos h]
    exact List.pairwise_lt_range totalPages
  · simp only [parsePages, parse_page_range, if_neg h]
    have hnd : ((splitOnChar ',' s).foldl (rangeStep totalPages) ([], 0)).1.Nodup :=
      foldl_rangeStep_nodup _ _ _ List.nodup_nil
    have hs : List.Sorted (· ≤ ·)
        (List.insertionSort (· ≤ ·)
          ((splitOnChar ',' s).foldl (rangeStep totalPages) ([], 0)).1) :=
      List.sorted_insertionSort _ _
    have hnd2 : (List.insertionSort (· ≤ ·)
        ((splitOnChar ',' s).foldl (rangeStep totalPages) ([], 0)).1).Nodup :=
      ((List.perm_insertionSort _ _).nodup_iff).mpr hnd
    exact hs.lt_of_le hnd2

/-- C2: page-range parsing is total (a Lean function, modelling that the
Python catches every per-token `ValueError`); `all` and the empty string
select every page; a range token with two parseable endpoints contributes
exactly the 1-indexed interval clamped to `[max 1 a, min totalPages b]`,
shifted to 0-indexed; a single-number token is accepted exactly when it
lies in `[1, totalPages]` and otherwise warned and skipped; an unparseable
token is warned and skipped; the output is strictly sorted (so
deduplicated and ascending); and the three concrete examples hold. -/
theorem C2_page_range_spec :
    (∀ totalPages : Nat, parsePages [] totalPages = List.range totalPages) ∧
    (∀ totalPages : Nat, parsePages ("all".toList) totalPages = List.range totalPages) ∧
    (∀ (s : List Char) (totalPages : Nat), List.Sorted (· < ·) (parsePages s totalPages)) ∧
    (∀ (part : List Char) (totalPages : Nat) (a b : Int) (s1 s2 : List Char) (k : Nat),
      splitOnChar '-' (pyStrip part) = [s1, s2] →
      pyInt s1 = some a → pyInt s2 = some b →
      processPart totalPages part = (clampRangePages totalPages a b, 0) ∧
      (k ∈ clampRangePages totalPages a b ↔
        max 1 a ≤ (k : Int) + 1 ∧ (k : Int) + 1 ≤ min (totalPages : Int) b)) ∧
    (∀ (part : List Char) (totalPages : Nat) (m : Int),
      (pyStrip part).contains '-' = false → pyInt (pyStrip part) = some m →
      processPart totalPages part =
        if 1 ≤ m ∧ m ≤ (totalPages : Int) then ([(m - 1).toNat], 0) else ([], 1)) ∧
    (∀ (part : List Char) (totalPages : Nat),
      (pyStrip part).contains '-' = false → pyInt (pyStrip part) = none →
      processPart totalPages part = ([], 1)) ∧
    parsePages ("1-3,7,9-10".toList) 10 = [0, 1, 2, 6, 8, 9] ∧
    parsePages ("all".toList) 5 = [0, 1, 2, 3, 4] ∧
    parsePages ("99".toList) 5 = [] := by
  refine ⟨?_, ?_, parsePages_sorted, ?_, ?_, ?_, by decide, by decide, by decide⟩
  · intro totalPages
    simp [parsePages, parse_page_range]
  · intro totalPages
    rw [parsePages, parse_page_range, if_pos (Or.inr (by decide))]
  · intro part totalPages a b s1 s2 k h1 h2 h3
    have hc : (pyStrip part).contains '-' = true := contains_of_splitOnChar_pair h1
    have hmem : '-' ∈ pyStrip part := by simpa using hc
    refine ⟨?_, mem_clampRangePages⟩
    simp [processPart, hmem, h1, h2, h3]
  · intro part totalPages m hc h
    have hmem : '-' ∉ pyStrip part := by simpa using hc
    simp [processPart, hmem, h]
  · intro part totalPages hc h
    have hmem : '-' ∉ pyStrip part := by simpa using hc
    simp [processPart, hmem, h]

/-- Witness for C2: the range token `" 2-5 "`, the in-range single token
`"7"` and the invalid token `"x"` against a 10-page document. -/
theorem C2_page_range_spec_witness :
    (processPart 10 (" 2-5 ".toList) = (clampRangePages 10 2 5, 0) ∧
      (3 ∈ clampRangePages 10 2 5 ↔
        max 1 (2 : Int) ≤ ((3 : Nat) : Int) + 1 ∧
          ((3 : Nat) : Int) + 1 ≤ min ((10 : Nat) : Int) 5)) ∧
    processPart 10 ("7".toList) =
      (if 1 ≤ (7 : Int) ∧ (7 : Int) ≤ ((10 : Nat) : Int) then ([((7 : Int) - 1).toNat], 0)
        else ([], 1)) ∧
    processPart 10 ("x".toList) = ([], 1) :=
  ⟨C2_page_range_spec.2.2.2.1 (" 2-5 ".toList) 10 2 5 (['2']) (['5']) 3 (by decide)
      (by decide) (by decide),
    C2_page_range_spec.2.2.2.2.1 ("7".toList) 10 7 (by decide) (by decide),
    C2_page_range_spec.2.2.2.2.2.1 ("x".toList) 10 (by decide) (by decide)⟩

/-- Witness for C7 at `W = H = 100`, `outerMargin = 10`,
`cornerRadius = 1000`. -/
theorem C7_rounded_radius_clamped_witness :
    actualRadiusHQ 100 100 10 1000 = actualRadiusStd 100 100 10 1000 ∧
    actualRadiusHQ 100 100 10 1000 =
      min 1000 (min (min ((100 - 2 * 10) / 2) (((100 : ℚ) - 2 * 10) / 2)) 50) ∧
    actualRadiusHQ 100 100 10 1000 ≤ 40 :=
  C7_rounded_radius_clamped 100 100 10 1000 (by norm_num)

/-- The loop emits exactly one page per selected index, with that source
page's dimensions. -/
theorem processDocDims_length (dims : List (ℚ × ℚ)) (pageIdx : List Nat)
    (hvalid : ∀ j ∈ pageIdx, j < dims.length) :
    (processDocDims dims pageIdx).length = pageIdx.length := by
  induction pageIdx with
  | nil => rfl
  | cons j t ih =>
    have hj : j < dims.length := hvalid j (List.mem_cons_self j t)
    have hget : dims.get? j = some (dims.get ⟨j, hj⟩) := List.get?_eq_get hj
    have ih2 := ih (fun x hx => hvalid x (List.mem_cons_of_mem _ hx))
    simp only [processDocDims] at ih2
    simp only [processDocDims, List.filterMap_cons, hget, List.length_cons]
    omega

/-- Each output page of the loop carries the dimensions of the selected
source page at the same position. -/
theorem processDocDims_get (dims : List (ℚ × ℚ)) :
    ∀ (pageIdx : List Nat) (k i : Nat), (∀ j ∈ pageIdx, j < dims.length) →
      pageIdx.get? k = some i →
      (processDocDims dims pageIdx).get? k = dims.get? i := by
  intro pageIdx
  induction pageIdx with
  | nil =>
    intro k i _ hk
    simp at hk
  | cons j t ih =>
    intro k i hvalid hk
    have hj : j < dims.length := hvalid j (List.mem_cons_self j t)
    have hget : dims.get? j = some (dims.get ⟨j, hj⟩) := List.get?_eq_get hj
    cases k with
    | zero =>
      simp only [List.get?_cons_zero, Option.some.injEq] at hk
      subst hk
      simp only [processDocDims, List.filterMap_cons, hget, List.get?_cons_zero]
    | succ k =>
      simp only [List.get?_cons_succ] at hk
      have := ih k i (fun x hx => hvalid x (List.mem_cons_of_mem _ hx)) hk
      simp only [processDocDims, List.filterMap_cons, hget, List.get?_cons_succ]
      exact this

/-- C3 counterexample: on a two-page document with only page 0 selected,
the output of the processing loop has a single page, so the output page
count differs from the input page count. -/
theorem C3_page_count_counterexample :
    (processDocDims [((612 : ℚ), 792), (612, 792)] [0]).length = 1 ∧
    (processDocDims [((612 : ℚ), 792), (612, 792)] [0]).length ≠
      ([((612 : ℚ), 792), (612, 792)] : List (ℚ × ℚ)).length := by
  constructor
  · rfl
  · intro h
    simp [processDocDims] at h

/-- C3 amended: the output has exactly one page per **selected** page (not
per input page), and each output page keeps the width and height of the
corresponding selected input page; unselected pages are dropped. -/
theorem C3_selected_pages_dims (dims : List (ℚ × ℚ)) (pageIdx : List Nat) (k i : Nat)
    (hvalid : ∀ j ∈ pageIdx, j < dims.length) (hk : pageIdx.get? k = some i) :
    (processDocDims dims pageIdx).length = pageIdx.length ∧
    (processDocDims dims pageIdx).get? k = dims.get? i :=
  ⟨processDocDims_length dims pageIdx hvalid, processDocDims_get dims pageIdx k i hvalid hk⟩

/-- Witness for C3 amended: a two-page document processed with the
selection `[1, 0]`. -/
theorem C3_selected_pages_dims_witness :
    (processDocDims [((10 : ℚ), 20), (30, 40)] [1, 0]).length = ([1, 0] : List Nat).length ∧
    (processDocDims [((10 : ℚ), 20), (30, 40)] [1, 0]).get? 0 =
      ([((10 : ℚ), 20), (30, 40)] : List (ℚ × ℚ)).get? 1 :=
  C3_selected_pages_dims [((10 : ℚ), 20), (30, 40)] [1, 0] 0 1 (by decide) (by decide)

/-- C4 counterexample: `parse_color` does not clamp — `"510,0,0"` yields
`(2, 0, 0)` whose first component is outside `[0, 1]` — and it knows no
named or hex colors: `"red"` and `"#ff0000"` fall to the invalid case and
yield black rather than their exact triples. -/
theorem C4_color_counterexample :
    parse_color ("510,0,0".toList) = ((2 : ℚ), 0, 0) ∧ ¬ ((2 : ℚ) ≤ 1) ∧
    parse_color ("red".toList) = (0, 0, 0) ∧
    parse_color ("#ff0000".toList) = (0, 0, 0) := by
  have h1 : splitOnChar ',' ("510,0,0".toList) = [['5', '1', '0'], ['0'], ['0']] := by decide
  have h2 : pyInt (['5', '1', '0']) = some 510 := by decide
  have h3 : pyInt (['0']) = some 0 := by decide
  have h4 : splitOnChar ',' (['r', 'e', 'd']) = [['r', 'e', 'd']] := by decide
  have h5 : splitOnChar ',' (['#', 'f', 'f', '0', '0', '0', '0']) =
      [['#', 'f', 'f', '0', '0', '0', '0']] := by decide
  refine ⟨?_, by norm_num, ?_, ?_⟩
  · simp only [parse_color, h1, h2, h3, Prod.mk.injEq]
    norm_num
  · simp [parse_color, h4]
  · simp [parse_color, h5]

/-- C4 amended: the parser accepts exactly strings of three comma-separated
`int()` literals, mapping them to `(r/255, g/255, b/255)` with no clamping
(the components are in `[0,1]` iff each integer is in `[0,255]`); every
other input — wrong piece count or unparseable piece, which covers color
names and hex strings — yields black `(0, 0, 0)`. -/
theorem C4_color_amended :
    (∀ (s x y z : List Char) (r g b : Int),
      splitOnChar ',' s = [x, y, z] →
      pyInt x = some r → pyInt y = some g → pyInt z = some b →
      parse_color s = ((r : ℚ) / 255, (g : ℚ) / 255, (b : ℚ) / 255) ∧
      ((0 ≤ r ∧ r ≤ 255 ∧ 0 ≤ g ∧ g ≤ 255 ∧ 0 ≤ b ∧ b ≤ 255) ↔
        (0 ≤ (r : ℚ) / 255 ∧ (r : ℚ) / 255 ≤ 1 ∧ 0 ≤ (g : ℚ) / 255 ∧ (g : ℚ) / 255 ≤ 1 ∧
          0 ≤ (b : ℚ) / 255 ∧ (b : ℚ) / 255 ≤ 1))) ∧
    (∀ s : List Char, (splitOnChar ',' s).length ≠ 3 → parse_color s = (0, 0, 0)) ∧
    (∀ (s x y z : List Char), splitOnChar ',' s = [x, y, z] →
      pyInt x = none ∨ pyInt y = none ∨ pyInt z = none → parse_color s = (0, 0, 0)) := by
  have h255 : (0 : ℚ) < 255 := by norm_num
  have key : ∀ v : Int, (0 ≤ (v : ℚ) / 255 ∧ (v : ℚ) / 255 ≤ 1) ↔ (0 ≤ v ∧ v ≤ 255) := by
    intro v
    rw [le_div_iff₀ h255, div_le_one h255, zero_mul]
    constructor
    · rintro ⟨u1, u2⟩
      exact ⟨by exact_mod_cast u1, by exact_mod_cast u2⟩
    · rintro ⟨u1, u2⟩
      exact ⟨by exact_mod_cast u1, by exact_mod_cast u2⟩
  refine ⟨?_, ?_, ?_⟩
  · intro s x y z r g b hs hx hy hz
    constructor
    · simp [parse_color, hs, hx, hy, hz]
    · constructor
      · rintro ⟨a1, a2, a3, a4, a5, a6⟩
        obtain ⟨c1, c2⟩ := (key r).mpr ⟨a1, a2⟩
        obtain ⟨c3, c4⟩ := (key g).mpr ⟨a3, a4⟩
        obtain ⟨c5, c6⟩ := (key b).mpr ⟨a5, a6⟩
        exact ⟨c1, c2, c3, c4, c5, c6⟩
      · rintro ⟨a1, a2, a3, a4, a5, a6⟩
        obtain ⟨c1, c2⟩ := (key r).mp ⟨a1, a2⟩
        obtain ⟨c3, c4⟩ := (key g).mp ⟨a3, a4⟩
        obtain ⟨c5, c6⟩ := (key b).mp ⟨a5, a6⟩
        exact ⟨c1, c2, c3, c4, c5, c6⟩
  · intro s hlen
    simp only [parse_color]
    split
    · rename_i x y z heq
      exact absurd (by rw [heq]; rfl) hlen
    · rfl
  · intro s x y z heq hfail
    simp only [parse_color, heq]
    split
    · rename_i r g b hx hy hz
      rcases hfail with h | h | h
      · rw [h] at hx
        exact absurd hx (by simp)
      · rw [h] at hy
        exact absurd hy (by simp)
      · rw [h] at hz
        exact absurd hz (by simp)
    · rfl

/-- Witness for C4 amended: the unclamped triple `"510,0,0"` and the
rejected color name `"red"`. -/
theorem C4_color_amended_witness :
    (parse_color ("510,0,0".toList) =
        (((510 : Int) : ℚ) / 255, ((0 : Int) : ℚ) / 255, ((0 : Int) : ℚ) / 255) ∧
      ((0 ≤ (510 : Int) ∧ (510 : Int) ≤ 255 ∧ 0 ≤ (0 : Int) ∧ (0 : Int) ≤ 255 ∧
          0 ≤ (0 : Int) ∧ (0 : Int) ≤ 255) ↔
        (0 ≤ ((510 : Int) : ℚ) / 255 ∧ ((510 : Int) : ℚ) / 255 ≤ 1 ∧
          0 ≤ ((0 : Int) : ℚ) / 255 ∧ ((0 : Int) : ℚ) / 255 ≤ 1 ∧
          0 ≤ ((0 : Int) : ℚ) / 255 ∧ ((0 : Int) : ℚ) / 255 ≤ 1))) ∧
    parse_color ("red".toList) = (0, 0, 0) :=
  ⟨C4_color_amended.1 ("510,0,0".toList) (['5', '1', '0']) (['0']) (['0']) 510 0 0
      (by decide) (by decide) (by decide) (by decide),
    C4_color_amended.2.1 ("red".toList) (by decide)⟩

/-- C8: for each of the nine position keywords and both locations, the
anchor computed by the substring-driven code equals the claimed formulas —
horizontally `boundLeft`, `boundRight - textWidth` or
`(pageWidth - textWidth)/2`; vertically `boundTop - textHeight`,
`boundBottom` or `pageHeight/2` — with bounds inset by
`outerMargin + margin` inside and by `margin` alone outside; and the
bottom-right/outside example on a 200 x 300 page with `margin = 5`,
`textWidth = 40`, `textHeight = 10` yields `(155, 5)`. -/
theorem C8_text_anchor :
    (∀ (v : VPos) (hp : HPos) (inside : Bool)
        (pageWidth pageHeight outerMargin textWidth textHeight margin : ℚ),
      calculate_text_position (posStr v hp) (locStr inside)
          pageWidth pageHeight outerMargin textWidth textHeight margin =
        ((match hp with
          | .left => if inside then outerMargin + margin else margin
          | .right =>
            (if inside then pageWidth - outerMargin - margin else pageWidth - margin) -
              textWidth
          | .hcenter => (pageWidth - textWidth) / 2),
          (match v with
          | .top =>
            (if inside then pageHeight - outerMargin - margin else pageHeight - margin) -
              textHeight
          | .bottom => if inside then outerMargin + margin else margin
          | .middle => pageHeight / 2))) ∧
    calculate_text_position ("bottom-right".toList) ("outside".toList) 200 300 20 40 10 5 =
      (155, 5) := by
  constructor
  · intro v hp inside pageWidth pageHeight outerMargin textWidth textHeight margin
    cases v <;> cases hp <;> cases inside <;> rfl
  · show ((200 : ℚ) - 5 - 40, (5 : ℚ)) = (155, 5)
    norm_num

/-- C9: in the page-number guard and display computation, with `pageNum`
the 1-based loop position (so zero-based index `idx`), the displayed value
is `startNumber + (idx - skipFirst)` and a number is drawn exactly for the
pages strictly after the first `skipFirst` and not among the last
`skipLast` of the processed range. -/
theorem C9_page_number (idx : Nat) (startNumber skipFirst skipLast totalPages : Int) :
    display_page_num startNumber ((idx : Int) + 1) skipFirst =
      startNumber + ((idx : Int) - skipFirst) ∧
    (pageNumberDrawn ((idx : Int) + 1) totalPages skipFirst skipLast ↔
      (skipFirst ≤ (idx : Int) ∧ (idx : Int) < totalPages - skipLast)) := by
  unfold display_page_num pageNumberDrawn
  constructor
  · ring
  · constructor
    · rintro ⟨h1, h2⟩
      exact ⟨by omega, by omega⟩
    · rintro ⟨h1, h2⟩
      exact ⟨by omega, by omega⟩

/-- Replacing a pattern that does not occur anywhere leaves the string
unchanged, whatever the fuel. -/
theorem pyReplaceFuel_of_not_contains :
    ∀ (fuel : Nat) (s pat rep : List Char), containsSub s pat = false →
      pyReplaceFuel fuel s pat rep = s := by
  intro fuel
  induction fuel with
  | zero => intro s pat rep _; rfl
  | succ fuel ih =>
    intro s pat rep h
    cases s with
    | nil => rfl
    | cons c rest =>
      have h2 : pat.isPrefixOf (c :: rest) = false ∧ containsSub rest pat = false := by
        simpa [containsSub, Bool.or_eq_false_iff] using h
      rw [pyReplaceFuel]
      rw [if_neg (by simp [h2.1])]
      rw [ih rest pat rep h2.2]

/-- Replacing an absent pattern is the identity. -/
theorem pyReplace_of_not_contains (s pat rep : List Char)
    (h : containsSub s pat = false) : pyReplace s pat rep = s :=
  pyReplaceFuel_of_not_contains s.length s pat rep h

/-- C10: a format template without the `{n}` placeholder yields the empty
string unless the digits of the current page number happen to occur in the
template after `{total}` substitution, in which case the substituted text
is returned — so such a template generally suppresses the page number
rather than printing the literal template. -/
theorem C10_format_no_placeholder (fmt : List Char) (currentPage totalPages : Int)
    (h : containsSub fmt ("{n}".toList) = false) :
    format_page_number fmt currentPage totalPages =
      (if containsSub (pyReplace fmt ("{total}".toList) (pyStr totalPages))
            (pyStr currentPage) then
        pyReplace fmt ("{total}".toList) (pyStr totalPages)
      else []) := by
  unfold format_page_number
  by_cases hnil : fmt = []
  · subst hnil
    rw [if_pos rfl]
    have hrep : pyReplace ([] : List Char) ("{total}".toList) (pyStr totalPages) = [] := rfl
    rw [hrep]
    split <;> rfl
  · rw [if_neg hnil]
    have hr1 : pyReplace fmt ("{n}".toList) (pyStr currentPage) = fmt :=
      pyReplace_of_not_contains _ _ _ h
    show (if containsSub fmt ("{n}".toList) = false ∧
          containsSub (pyReplace (pyReplace fmt ("{n}".toList) (pyStr currentPage))
            ("{total}".toList) (pyStr totalPages)) (pyStr currentPage) = false then
        ([] : List Char)
      else
        pyReplace (pyReplace fmt ("{n}".toList) (pyStr currentPage)) ("{total}".toList)
          (pyStr totalPages)) = _
    rw [hr1]
    cases hc : containsSub (pyReplace fmt ("{total}".toList) (pyStr totalPages))
        (pyStr currentPage) with
    | false =>
      rw [if_pos ⟨h, rfl⟩]
      rfl
    | true =>
      rw [if_neg (fun hcon => absurd hcon.2 (by simp))]
      rfl

/-- Witness for C10: the template `"Page {total}"` with current page 7 of
9 — since `"7"` does not occur in `"Page 9"`, the result is empty. -/
theorem C10_format_no_placeholder_witness :
    containsSub ("Page {total}".toList) ("{n}".toList) = false ∧
    format_page_number ("Page {total}".toList) 7 9 =
      (if containsSub (pyReplace ("Page {total}".toList) ("{total}".toList) (pyStr 9))
            (pyStr 7) then
        pyReplace ("Page {total}".toList) ("{total}".toList) (pyStr 9)
      else []) :=
  ⟨by decide, C10_format_no_placeholder ("Page {total}".toList) 7 9 (by decide)⟩

end PdfBorder
